import Mathlib

/-!
Verification development for the aviator wallet backend.

Shallow embedding of `src/backend/src/services/walletService.js`
(class `WalletService`) and of the in-memory `GameRepository`
(`src/unnamed/part_000`).

Modelling conventions:
- The shared key-value service (redis) is a partial map from string
  keys to string values; `set` with `NX` and the conditional-delete
  Lua script of `releaseWalletLock` are embedded as pure functions on
  it.  Key expiry is real time and is not modelled.
- Monetary amounts are rationals (the spec calls them fixed-point
  decimals); JS float behaviour is outside the claims treated here.
- Each service method is a pure function from its inputs plus an
  explicit environment (recording which of the fallible collaborator
  calls succeed) and the current redis store and wallet state, to an
  outcome record: the returned value or thrown error, the resulting
  store and wallet, and the ordered list of observable effects.  The
  try/catch/finally structure of the JS is translated branch by
  branch: the `finally` release runs on every path on which the lock
  variable was assigned, and the event list is in execution order, so
  the release step running before an error reaches the caller is
  visible as the release event being last.
- The repository behind the service (`WalletRepository`) is not under
  src/; its ledger operations are modelled from the spec where noted.
-/

/-- A redis store: partial map from keys to string values. -/
def RedisStore : Type := String → Option String

/-- The empty store. -/
def emptyStore : RedisStore := fun _ => none

/-- Embeds `redisClient.get(k)`. -/
def redisGet (s : RedisStore) (k : String) : Option String :=
  s k

/-- Embeds `redisClient.del(k)`. -/
def redisDel (s : RedisStore) (k : String) : RedisStore :=
  fun k' => if k' = k then none else s k'

/-- Embeds a plain `redisClient.set(k, v)` (overwrite). -/
def redisSet (s : RedisStore) (k v : String) : RedisStore :=
  fun k' => if k' = k then some v else s k'

/-- Embeds `redisClient.set(k, v, { NX: true, PX: ... })`: create only
if absent; the returned boolean is the JS truthiness of the reply. -/
def redisSetNX (s : RedisStore) (k v : String) : Bool × RedisStore :=
  if redisGet s k = none then (true, redisSet s k v) else (false, s)

/-- Error kinds thrown by the service (the JS throws `Error` objects;
their message strings are mapped to tags). -/
inductive WalletError where
  | validation
  | lockContention
  | persistence
  | cacheError
  | notifyError
  | createFailed
  | invalidUserId
deriving Repr, DecidableEq

/-- The lock key computed inside `acquireWalletLock`:
`wallet_lock:${userId}`.  It depends on the userId only. -/
def walletLockKey (userId : String) : String :=
  "wallet_lock:" ++ userId

/-- Embeds `WalletService.acquireWalletLock(userId, lockReason)`.
`lockValue` stands for the fresh `uuidv4()`.  The `lockReason`
argument is used by the source only inside log payloads, which are
not modelled.  On success the method returns `{ lockKey, lockValue }`;
if the key already exists the source throws the contention error
`Wallet transaction in progress`. -/
def acquireWalletLock (userId lockReason lockValue : String)
    (s : RedisStore) : Except WalletError (String × String) × RedisStore :=
  let lockKey := walletLockKey userId
  match redisSetNX s lockKey lockValue with
  | (true, s1) => (Except.ok (lockKey, lockValue), s1)
  | (false, s1) => (Except.error WalletError.lockContention, s1)

/-- Embeds `WalletService.releaseWalletLock(lockKey, lockValue)`: the
Lua script deletes the key only when its current value equals the
supplied token, otherwise it leaves the store unchanged; either way
the call completes normally. -/
def releaseWalletLock (s : RedisStore) (lockKey lockValue : String) :
    RedisStore :=
  if redisGet s lockKey = some lockValue then redisDel s lockKey else s

theorem redisGet_redisDel_self (s : RedisStore) (k : String) :
    redisGet (redisDel s k) k = none := by
  simp [redisGet, redisDel]

theorem redisGet_redisDel_ne (s : RedisStore) (k k' : String)
    (h : k' ≠ k) : redisGet (redisDel s k) k' = redisGet s k' := by
  simp [redisGet, redisDel, h]

/-- A ledger transaction row. -/
structure Txn where
  txType : String
  amount : Rat
  balanceAfter : Rat
deriving Repr, DecidableEq

/-- A wallet row together with its append-only transaction history
(oldest first). -/
structure Wallet where
  balance : Rat
  txns : List Txn
deriving Repr, DecidableEq

/-- A freshly created wallet: balance 0, no transactions (both the
spec and `initializeWallet` create wallets with balance 0). -/
def walletInit : Wallet := { balance := 0, txns := [] }

/-- Modelled from the spec: `WalletRepository.recordTransaction` and
`WalletRepository.deposit` (the repository module is not under src/).
Per the Ledger Store contract, one atomic unit: compute
`newBalance = currentBalance + amount` (`amount` is signed), insert
the Transaction row with `balanceAfter = newBalance`, and update the
stored balance to match.  Returns the mutated wallet and the new
balance. -/
def ledgerAppend (w : Wallet) (txType : String) (amount : Rat) :
    Wallet × Rat :=
  let newBalance := w.balance + amount
  ({ balance := newBalance
     txns := w.txns ++ [{ txType := txType, amount := amount, balanceAfter := newBalance }] },
   newBalance)

/-- Observable effects of one service call, in execution order. -/
inductive Event where
  | lockAcquired (key : String)
  | ledgerWrite (txType : String) (amount : Rat)
  | cacheWrite (key : String) (balance : Rat)
  | notified
  | reconciled (corrected : Bool)
  | lockReleased (key : String)
deriving Repr, DecidableEq

/-- Which fallible collaborator calls succeed during one service call
(failure of any of them makes the corresponding await throw). -/
structure Env where
  ledgerOk : Bool
  cacheOk : Bool
  socketPresent : Bool
  notifyOk : Bool
  createOk : Bool
deriving Repr, DecidableEq

/-- The environment in which every collaborator call succeeds. -/
def envAllOk : Env :=
  { ledgerOk := true, cacheOk := true, socketPresent := true
    notifyOk := true, createOk := true }

/-- Outcome of one service call: returned value (the new balance) or
thrown error, the resulting redis store and wallet, and the events. -/
structure OpOutcome where
  result : Except WalletError Rat
  store : RedisStore
  wallet : Wallet
  events : List Event

/-- Embeds `WalletService.deposit(userId, amount, ...)` (source lines
135-193).  Steps in source order: positivity validation, lock
acquisition, `WalletRepository.deposit(userId, null, amount, ...)`,
redis cache write of the new balance, return; the catch block
rethrows every error and the finally block releases the lock whenever
`walletLock` was assigned. -/
def deposit (env : Env) (lockValue userId : String) (amount : Rat)
    (s : RedisStore) (w : Wallet) : OpOutcome :=
  if amount ≤ 0 then
    { result := Except.error WalletError.validation, store := s, wallet := w, events := [] }
  else
    match acquireWalletLock userId "deposit_transaction" lockValue s with
    | (Except.error e, s1) =>
      { result := Except.error e, store := s1, wallet := w, events := [] }
    | (Except.ok lk, s1) =>
      if env.ledgerOk then
        let r := ledgerAppend w "deposit" amount
        if env.cacheOk then
          let s2 := redisSet s1 ("wallet_balance:" ++ userId) (toString r.2)
          { result := Except.ok r.2
            store := releaseWalletLock s2 lk.1 lk.2
            wallet := r.1
            events := [Event.lockAcquired lk.1, Event.ledgerWrite "deposit" amount,
                       Event.cacheWrite ("wallet_balance:" ++ userId) r.2,
                       Event.lockReleased lk.1] }
        else
          { result := Except.error WalletError.cacheError
            store := releaseWalletLock s1 lk.1 lk.2
            wallet := r.1
            events := [Event.lockAcquired lk.1, Event.ledgerWrite "deposit" amount,
                       Event.lockReleased lk.1] }
      else
        { result := Except.error WalletError.persistence
          store := releaseWalletLock s1 lk.1 lk.2
          wallet := w
          events := [Event.lockAcquired lk.1, Event.lockReleased lk.1] }

/-- Embeds `WalletService.placeBet(userId, betAmount, gameId)` (source
lines 196-266).  After validation and lock acquisition it calls
`WalletRepository.deposit` with the negated amount (`-betAmount`) and
payment method `game_bet`, writes the cache, then emits a socket
update when a wallet socket is present; all errors rethrow after the
finally release. -/
def placeBet (env : Env) (lockValue userId : String) (betAmount : Rat)
    (gameId : String) (s : RedisStore) (w : Wallet) : OpOutcome :=
  if betAmount ≤ 0 then
    { result := Except.error WalletError.validation, store := s, wallet := w, events := [] }
  else
    match acquireWalletLock userId "bet_placement_transaction" lockValue s with
    | (Except.error e, s1) =>
      { result := Except.error e, store := s1, wallet := w, events := [] }
    | (Except.ok lk, s1) =>
      if env.ledgerOk then
        let r := ledgerAppend w "game_bet" (-betAmount)
        if env.cacheOk then
          let s2 := redisSet s1 ("wallet_balance:" ++ userId) (toString r.2)
          if env.socketPresent then
            if env.notifyOk then
              { result := Except.ok r.2
                store := releaseWalletLock s2 lk.1 lk.2
                wallet := r.1
                events := [Event.lockAcquired lk.1, Event.ledgerWrite "game_bet" (-betAmount),
                           Event.cacheWrite ("wallet_balance:" ++ userId) r.2,
                           Event.notified, Event.lockReleased lk.1] }
            else
              { result := Except.error WalletError.notifyError
                store := releaseWalletLock s2 lk.1 lk.2
                wallet := r.1
                events := [Event.lockAcquired lk.1, Event.ledgerWrite "game_bet" (-betAmount),
                           Event.cacheWrite ("wallet_balance:" ++ userId) r.2,
                           Event.lockReleased lk.1] }
          else
            { result := Except.ok r.2
              store := releaseWalletLock s2 lk.1 lk.2
              wallet := r.1
              events := [Event.lockAcquired lk.1, Event.ledgerWrite "game_bet" (-betAmount),
                         Event.cacheWrite ("wallet_balance:" ++ userId) r.2,
                         Event.lockReleased lk.1] }
        else
          { result := Except.error WalletError.cacheError
            store := releaseWalletLock s1 lk.1 lk.2
            wallet := r.1
            events := [Event.lockAcquired lk.1, Event.ledgerWrite "game_bet" (-betAmount),
                       Event.lockReleased lk.1] }
      else
        { result := Except.error WalletError.persistence
          store := releaseWalletLock s1 lk.1 lk.2
          wallet := w
          events := [Event.lockAcquired lk.1, Event.lockReleased lk.1] }

/-- Embeds `WalletService.processWinnings(userId, winAmount, gameId)`
(source lines 269-339).  Identical orchestration to `placeBet` except
that the amount passed to `WalletRepository.deposit` is the positive
`winAmount` with payment method `game_win`. -/
def processWinnings (env : Env) (lockValue userId : String)
    (winAmount : Rat) (gameId : String) (s : RedisStore) (w : Wallet) :
    OpOutcome :=
  if winAmount ≤ 0 then
    { result := Except.error WalletError.validation, store := s, wallet := w, events := [] }
  else
    match acquireWalletLock userId "game_winnings_transaction" lockValue s with
    | (Except.error e, s1) =>
      { result := Except.error e, store := s1, wallet := w, events := [] }
    | (Except.ok lk, s1) =>
      if env.ledgerOk then
        let r := ledgerAppend w "game_win" winAmount
        if env.cacheOk then
          let s2 := redisSet s1 ("wallet_balance:" ++ userId) (toString r.2)
          if env.socketPresent then
            if env.notifyOk then
              { result := Except.ok r.2
                store := releaseWalletLock s2 lk.1 lk.2
                wallet := r.1
                events := [Event.lockAcquired lk.1, Event.ledgerWrite "game_win" winAmount,
                           Event.cacheWrite ("wallet_balance:" ++ userId) r.2,
                           Event.notified, Event.lockReleased lk.1] }
            else
              { result := Except.error WalletError.notifyError
                store := releaseWalletLock s2 lk.1 lk.2
                wallet := r.1
                events := [Event.lockAcquired lk.1, Event.ledgerWrite "game_win" winAmount,
                           Event.cacheWrite ("wallet_balance:" ++ userId) r.2,
                           Event.lockReleased lk.1] }
          else
            { result := Except.ok r.2
              store := releaseWalletLock s2 lk.1 lk.2
              wallet := r.1
              events := [Event.lockAcquired lk.1, Event.ledgerWrite "game_win" winAmount,
                         Event.cacheWrite ("wallet_balance:" ++ userId) r.2,
                         Event.lockReleased lk.1] }
        else
          { result := Except.error WalletError.cacheError
            store := releaseWalletLock s1 lk.1 lk.2
            wallet := r.1
            events := [Event.lockAcquired lk.1, Event.ledgerWrite "game_win" winAmount,
                       Event.lockReleased lk.1] }
      else
        { result := Except.error WalletError.persistence
          store := releaseWalletLock s1 lk.1 lk.2
          wallet := w
          events := [Event.lockAcquired lk.1, Event.lockReleased lk.1] }

/-- Embeds `WalletService.cashout(userId, cashoutAmount, gameId)`
(source lines 650-720).  Identical orchestration to `placeBet` except
that the amount passed to `WalletRepository.deposit` is the positive
`cashoutAmount` with payment method `game_cashout`. -/
def cashout (env : Env) (lockValue userId : String)
    (cashoutAmount : Rat) (gameId : String) (s : RedisStore) (w : Wallet) :
    OpOutcome :=
  if cashoutAmount ≤ 0 then
    { result := Except.error WalletError.validation, store := s, wallet := w, events := [] }
  else
    match acquireWalletLock userId "cashout_transaction" lockValue s with
    | (Except.error e, s1) =>
      { result := Except.error e, store := s1, wallet := w, events := [] }
    | (Except.ok lk, s1) =>
      if env.ledgerOk then
        let r := ledgerAppend w "game_cashout" cashoutAmount
        if env.cacheOk then
          let s2 := redisSet s1 ("wallet_balance:" ++ userId) (toString r.2)
          if env.socketPresent then
            if env.notifyOk then
              { result := Except.ok r.2
                store := releaseWalletLock s2 lk.1 lk.2
                wallet := r.1
                events := [Event.lockAcquired lk.1, Event.ledgerWrite "game_cashout" cashoutAmount,
                           Event.cacheWrite ("wallet_balance:" ++ userId) r.2,
                           Event.notified, Event.lockReleased lk.1] }
            else
              { result := Except.error WalletError.notifyError
                store := releaseWalletLock s2 lk.1 lk.2
                wallet := r.1
                events := [Event.lockAcquired lk.1, Event.ledgerWrite "game_cashout" cashoutAmount,
                           Event.cacheWrite ("wallet_balance:" ++ userId) r.2,
                           Event.lockReleased lk.1] }
          else
            { result := Except.ok r.2
              store := releaseWalletLock s2 lk.1 lk.2
              wallet := r.1
              events := [Event.lockAcquired lk.1, Event.ledgerWrite "game_cashout" cashoutAmount,
                         Event.cacheWrite ("wallet_balance:" ++ userId) r.2,
                         Event.lockReleased lk.1] }
        else
          { result := Except.error WalletError.cacheError
            store := releaseWalletLock s1 lk.1 lk.2
            wallet := r.1
            events := [Event.lockAcquired lk.1, Event.ledgerWrite "game_cashout" cashoutAmount,
                       Event.lockReleased lk.1] }
      else
        { result := Except.error WalletError.persistence
          store := releaseWalletLock s1 lk.1 lk.2
          wallet := w
          events := [Event.lockAcquired lk.1, Event.lockReleased lk.1] }

/-- Embeds `WalletService.withdraw(userId, amount, description)`
(source lines 342-394).  After validation and lock acquisition it
calls `WalletRepository.recordTransaction(userId, withdraw, amount,
null, { description })` - note that the source passes the positive
`amount` through unchanged - then writes the cache; no socket step;
errors rethrow after the finally release. -/
def withdraw (env : Env) (lockValue userId : String) (amount : Rat)
    (s : RedisStore) (w : Wallet) : OpOutcome :=
  if amount ≤ 0 then
    { result := Except.error WalletError.validation, store := s, wallet := w, events := [] }
  else
    match acquireWalletLock userId "withdrawal_transaction" lockValue s with
    | (Except.error e, s1) =>
      { result := Except.error e, store := s1, wallet := w, events := [] }
    | (Except.ok lk, s1) =>
      if env.ledgerOk then
        let r := ledgerAppend w "withdraw" amount
        if env.cacheOk then
          let s2 := redisSet s1 ("wallet_balance:" ++ userId) (toString r.2)
          { result := Except.ok r.2
            store := releaseWalletLock s2 lk.1 lk.2
            wallet := r.1
            events := [Event.lockAcquired lk.1, Event.ledgerWrite "withdraw" amount,
                       Event.cacheWrite ("wallet_balance:" ++ userId) r.2,
                       Event.lockReleased lk.1] }
        else
          { result := Except.error WalletError.cacheError
            store := releaseWalletLock s1 lk.1 lk.2
            wallet := r.1
            events := [Event.lockAcquired lk.1, Event.ledgerWrite "withdraw" amount,
                       Event.lockReleased lk.1] }
      else
        { result := Except.error WalletError.persistence
          store := releaseWalletLock s1 lk.1 lk.2
          wallet := w
          events := [Event.lockAcquired lk.1, Event.lockReleased lk.1] }

/-- Embeds `WalletService.createWallet(userId)` (source lines
428-469): lock acquisition (no amount validation), then
`WalletRepository.createWallet(userId)` - modelled from the spec as
producing a fresh wallet with balance 0, the module being absent from
src/ - a falsy result throws `Unable to create wallet`; then the
cache write of the new balance; errors rethrow after the finally
release. -/
def createWallet (env : Env) (lockValue userId : String)
    (s : RedisStore) (w : Wallet) : OpOutcome :=
  match acquireWalletLock userId "wallet_creation" lockValue s with
  | (Except.error e, s1) =>
    { result := Except.error e, store := s1, wallet := w, events := [] }
  | (Except.ok lk, s1) =>
    if env.createOk then
      let nw := walletInit
      if env.cacheOk then
        let s2 := redisSet s1 ("wallet_balance:" ++ userId) (toString nw.balance)
        { result := Except.ok nw.balance
          store := releaseWalletLock s2 lk.1 lk.2
          wallet := nw
          events := [Event.lockAcquired lk.1,
                     Event.cacheWrite ("wallet_balance:" ++ userId) nw.balance,
                     Event.lockReleased lk.1] }
      else
        { result := Except.error WalletError.cacheError
          store := releaseWalletLock s1 lk.1 lk.2
          wallet := nw
          events := [Event.lockAcquired lk.1, Event.lockReleased lk.1] }
    else
      { result := Except.error WalletError.createFailed
        store := releaseWalletLock s1 lk.1 lk.2
        wallet := w
        events := [Event.lockAcquired lk.1, Event.lockReleased lk.1] }

/-- Sum of all transaction amounts recorded for a wallet. -/
def sumAmounts (w : Wallet) : Rat :=
  (w.txns.map Txn.amount).sum

/-- Reconciliation result as logged and consumed by
`getUserProfileBalance`. -/
structure ReconcileResult where
  currentBalance : Rat
  calculatedBalance : Rat
  corrected : Bool
  difference : Rat
deriving Repr, DecidableEq

/-- Modelled from the spec: `WalletRepository.verifyAndSyncBalance`
(the repository module is not under src/).  Per the Reconciliation
Engine contract it acquires the same per-user wallet lock as ordinary
mutations, recomputes `calculatedBalance` by summing all transaction
amounts independently of the stored balance, corrects the stored
balance when the two differ (setting `corrected = true`), and
releases its lock. -/
def verifyAndSyncBalance (lockValue userId : String) (s : RedisStore)
    (w : Wallet) :
    Except WalletError ReconcileResult × RedisStore × Wallet × List Event :=
  match acquireWalletLock userId "balance_reconciliation" lockValue s with
  | (Except.error e, s1) => (Except.error e, s1, w, [])
  | (Except.ok lk, s1) =>
    let calcBal := sumAmounts w
    let corrected := calcBal != w.balance
    let w1 := if corrected then { w with balance := calcBal } else w
    (Except.ok { currentBalance := w.balance, calculatedBalance := calcBal
                 corrected := corrected, difference := calcBal - w.balance },
     releaseWalletLock s1 lk.1 lk.2, w1,
     [Event.lockAcquired lk.1, Event.reconciled corrected,
      Event.lockReleased lk.1])

/-- JS truthiness of the userId argument, which may be null or
undefined (`none`) or a string (empty strings are falsy). -/
def jsTruthy : Option String → Bool
  | none => false
  | some s => !s.isEmpty

/-- The response object built by `getUserProfileBalance`. -/
structure BalanceResponse where
  balance : Rat
  currency : String
  balanceVerified : Bool
deriving Repr, DecidableEq

/-- Embeds `WalletService.getUserProfileBalance(userId)` (source lines
472-536): a falsy userId throws `Invalid User ID` before any other
work; otherwise the method calls
`WalletRepository.verifyAndSyncBalance(userId)`, builds the response
from `calculatedBalance`, and caches the balance in redis. -/
def getUserProfileBalance (lockValue : String) (userId : Option String)
    (s : RedisStore) (w : Wallet) :
    Except WalletError BalanceResponse × RedisStore × Wallet × List Event :=
  if jsTruthy userId = false then
    (Except.error WalletError.invalidUserId, s, w, [])
  else
    let uid := userId.getD ""
    match verifyAndSyncBalance lockValue uid s w with
    | (Except.error e, s1, w1, evs) => (Except.error e, s1, w1, evs)
    | (Except.ok rr, s1, w1, evs) =>
      let resp : BalanceResponse :=
        { balance := rr.calculatedBalance, currency := "KSH"
          balanceVerified := rr.corrected }
      (Except.ok resp,
       redisSet s1 ("wallet_balance:" ++ uid) (toString resp.balance), w1,
       evs ++ [Event.cacheWrite ("wallet_balance:" ++ uid) resp.balance])

/-- One player record inside a stored game result
(`src/unnamed/part_000`). -/
structure PlayerEntry where
  playerId : String
  betAmount : Rat
  status : String
deriving Repr, DecidableEq

/-- The argument of `GameRepository.saveGameResult`. -/
structure GameResultIn where
  gameId : String
  crashPoint : Rat
  players : List PlayerEntry
deriving Repr, DecidableEq

/-- An entry of `this.gameHistory`; `timestamp` models `new Date()`
as an abstract clock value supplied by the caller. -/
structure HistoryEntry where
  gameId : String
  crashPoint : Rat
  timestamp : Nat
  players : List PlayerEntry
deriving Repr, DecidableEq

/-- The object `saveGameResult` pushes onto the history. -/
def toHistoryEntry (g : GameResultIn) (now : Nat) : HistoryEntry :=
  { gameId := g.gameId, crashPoint := g.crashPoint, timestamp := now
    players := g.players.map (fun p =>
      { playerId := p.playerId, betAmount := p.betAmount, status := p.status }) }

/-- Embeds `GameRepository.saveGameResult` (part_000 lines 10-30):
`unshift` the new entry to the front (newest first), then if the
length exceeds 100, `pop` the last (oldest) entry. -/
def saveGameResult (hist : List HistoryEntry) (g : GameResultIn)
    (now : Nat) : List HistoryEntry :=
  let h := toHistoryEntry g now :: hist
  if h.length > 100 then h.dropLast else h

/-- Embeds `GameRepository.getGameHistory(limit)` (part_000 lines
33-35): `this.gameHistory.slice(0, limit)`. -/
def getGameHistory (hist : List HistoryEntry) (limit : Nat) :
    List HistoryEntry :=
  hist.take limit

/-- Embeds `GameRepository.getLastGameResult` (part_000 lines 38-40):
`this.gameHistory[0] || null`. -/
def getLastGameResult (hist : List HistoryEntry) : Option HistoryEntry :=
  hist.head?

/-- Runs a sequence of `saveGameResult` calls (with their clock
values) against the initially empty history of the repository. -/
def runSaves (l : List (GameResultIn × Nat)) : List HistoryEntry :=
  l.foldl (fun h g => saveGameResult h g.1 g.2) []

/-- One mutating wallet operation of the service, with its amount
(and game id where the source takes one). -/
inductive WOp where
  | dep (a : Rat)
  | wd (a : Rat)
  | bet (a : Rat) (g : String)
  | win (a : Rat) (g : String)
  | co (a : Rat) (g : String)

/-- Applies one mutating operation (under its own environment and
fresh lock token) to the redis store and wallet. -/
def runOp (uid : String) (o : WOp × Env × String)
    (sw : RedisStore × Wallet) : RedisStore × Wallet :=
  match o.1 with
  | WOp.dep a =>
    let out := deposit o.2.1 o.2.2 uid a sw.1 sw.2
    (out.store, out.wallet)
  | WOp.wd a =>
    let out := withdraw o.2.1 o.2.2 uid a sw.1 sw.2
    (out.store, out.wallet)
  | WOp.bet a g =>
    let out := placeBet o.2.1 o.2.2 uid a g sw.1 sw.2
    (out.store, out.wallet)
  | WOp.win a g =>
    let out := processWinnings o.2.1 o.2.2 uid a g sw.1 sw.2
    (out.store, out.wallet)
  | WOp.co a g =>
    let out := cashout o.2.1 o.2.2 uid a g sw.1 sw.2
    (out.store, out.wallet)

/-- Applies a sequence of mutating operations in order. -/
def runOps (uid : String) (l : List (WOp × Env × String))
    (sw : RedisStore × Wallet) : RedisStore × Wallet :=
  l.foldl (fun sw o => runOp uid o sw) sw

/-- The ledger consistency invariant of one wallet: the stored
balance is the sum of all recorded transaction amounts, and the most
recent transaction snapshot matches the stored balance. -/
def WalletInv (w : Wallet) : Prop :=
  w.balance = sumAmounts w ∧
  ∀ t, w.txns.getLast? = some t → t.balanceAfter = w.balance

theorem walletInv_walletInit : WalletInv walletInit := by
  constructor
  · simp [walletInit, sumAmounts]
  · intro t ht
    simp [walletInit] at ht

theorem walletInv_ledgerAppend {w : Wallet} (h : WalletInv w)
    (ty : String) (a : Rat) : WalletInv (ledgerAppend w ty a).1 := by
  obtain ⟨h1, _⟩ := h
  constructor
  · simp [ledgerAppend, sumAmounts, h1]
  · intro t ht
    simp [ledgerAppend, List.getLast?_concat] at ht
    simp [ledgerAppend, ← ht]

theorem walletInv_deposit (env : Env) (lv uid : String) (a : Rat)
    (s : RedisStore) {w : Wallet} (h : WalletInv w) :
    WalletInv (deposit env lv uid a s w).wallet := by
  unfold deposit
  split
  · exact h
  · split
    · exact h
    · split
      · split
        · exact walletInv_ledgerAppend h _ _
        · exact walletInv_ledgerAppend h _ _
      · exact h

theorem walletInv_withdraw (env : Env) (lv uid : String) (a : Rat)
    (s : RedisStore) {w : Wallet} (h : WalletInv w) :
    WalletInv (withdraw env lv uid a s w).wallet := by
  unfold withdraw
  split
  · exact h
  · split
    · exact h
    · split
      · split
        · exact walletInv_ledgerAppend h _ _
        · exact walletInv_ledgerAppend h _ _
      · exact h

theorem walletInv_placeBet (env : Env) (lv uid : String) (a : Rat)
    (g : String) (s : RedisStore) {w : Wallet} (h : WalletInv w) :
    WalletInv (placeBet env lv uid a g s w).wallet := by
  unfold placeBet
  split
  · exact h
  · split
    · exact h
    · split
      · split
        · split
          · split
            · exact walletInv_ledgerAppend h _ _
            · exact walletInv_ledgerAppend h _ _
          · exact walletInv_ledgerAppend h _ _
        · exact walletInv_ledgerAppend h _ _
      · exact h

theorem walletInv_processWinnings (env : Env) (lv uid : String)
    (a : Rat) (g : String) (s : RedisStore) {w : Wallet}
    (h : WalletInv w) :
    WalletInv (processWinnings env lv uid a g s w).wallet := by
  unfold processWinnings
  split
  · exact h
  · split
    · exact h
    · split
      · split
        · split
          · split
            · exact walletInv_ledgerAppend h _ _
            · exact walletInv_ledgerAppend h _ _
          · exact walletInv_ledgerAppend h _ _
        · exact walletInv_ledgerAppend h _ _
      · exact h

theorem walletInv_cashout (env : Env) (lv uid : String) (a : Rat)
    (g : String) (s : RedisStore) {w : Wallet} (h : WalletInv w) :
    WalletInv (cashout env lv uid a g s w).wallet := by
  unfold cashout
  split
  · exact h
  · split
    · exact h
    · split
      · split
        · split
          · split
            · exact walletInv_ledgerAppend h _ _
            · exact walletInv_ledgerAppend h _ _
          · exact walletInv_ledgerAppend h _ _
        · exact walletInv_ledgerAppend h _ _
      · exact h

theorem walletInv_runOp (uid : String) (o : WOp × Env × String)
    {sw : RedisStore × Wallet} (h : WalletInv sw.2) :
    WalletInv (runOp uid o sw).2 := by
  rcases o with ⟨op, env, lv⟩
  cases op with
  | dep a => exact walletInv_deposit env lv uid a sw.1 h
  | wd a => exact walletInv_withdraw env lv uid a sw.1 h
  | bet a g => exact walletInv_placeBet env lv uid a g sw.1 h
  | win a g => exact walletInv_processWinnings env lv uid a g sw.1 h
  | co a g => exact walletInv_cashout env lv uid a g sw.1 h

theorem walletInv_runOps (uid : String) (l : List (WOp × Env × String))
    {sw : RedisStore × Wallet} (h : WalletInv sw.2) :
    WalletInv (runOps uid l sw).2 := by
  induction l generalizing sw with
  | nil => exact h
  | cons o t ih => exact ih (walletInv_runOp uid o h)

/-- C1: for every sequence of mutating wallet operations (deposit,
withdraw, placeBet, processWinnings, cashout) applied to one wallet
starting from creation - under arbitrary environments, lock tokens
and redis stores, which in particular covers every sequence of
successful operations - the stored balance equals the sum of the
signed amounts of all recorded transactions, and the balanceAfter of
the most recently recorded transaction equals the current balance. -/
theorem wallet_balance_matches_transaction_sum (uid : String)
    (l : List (WOp × Env × String)) (s : RedisStore) :
    WalletInv (runOps uid l (s, walletInit)).2 :=
  walletInv_runOps uid l walletInv_walletInit

/-- A store holding one lock for alice with token tokA. -/
def lockStoreA : RedisStore :=
  redisSet emptyStore "wallet_lock:alice" "tokA"

/-- C3: releaseWalletLock deletes the lock entry iff the currently
stored value equals the supplied token; on a mismatch (stale or
foreign token, or no lock present) the whole store is left unchanged
and the call completes normally (the function is total); other keys
are never affected. -/
theorem releaseWalletLock_deletes_iff_token_matches
    (s : RedisStore) (k t : String) :
    (redisGet s k = some t →
      releaseWalletLock s k t = redisDel s k ∧
      redisGet (releaseWalletLock s k t) k = none) ∧
    (redisGet s k ≠ some t → releaseWalletLock s k t = s) ∧
    (∀ k', k' ≠ k → redisGet (releaseWalletLock s k t) k' = redisGet s k') := by
  refine ⟨fun h => ⟨?_, ?_⟩, fun h => ?_, fun k' hk => ?_⟩
  · simp [releaseWalletLock, h]
  · simp [releaseWalletLock, h, redisGet_redisDel_self]
  · simp [releaseWalletLock, h]
  · unfold releaseWalletLock
    split
    · exact redisGet_redisDel_ne s k k' hk
    · rfl

/-- Witness for C3: holder A keeps its lock when a release with the
foreign token tokB is attempted, and a release with the matching
token tokA does delete it. -/
theorem releaseWalletLock_deletes_iff_token_matches_witness :
    (redisGet lockStoreA "wallet_lock:alice" ≠ some "tokB" ∧
      releaseWalletLock lockStoreA "wallet_lock:alice" "tokB" = lockStoreA) ∧
    (redisGet lockStoreA "wallet_lock:alice" = some "tokA" ∧
      redisGet (releaseWalletLock lockStoreA "wallet_lock:alice" "tokA")
        "wallet_lock:alice" = none) :=
  ⟨⟨by decide,
    (releaseWalletLock_deletes_iff_token_matches lockStoreA
      "wallet_lock:alice" "tokB").2.1 (by decide)⟩,
   ⟨by decide,
    ((releaseWalletLock_deletes_iff_token_matches lockStoreA
      "wallet_lock:alice" "tokA").1 (by decide)).2⟩⟩

/-- C4: a non-positive amount makes every mutating operation fail
with the validation error before any lock acquisition and before any
transaction row is created: the outcome carries the untouched store,
the untouched wallet, and an empty event list. -/
theorem nonpositive_amount_rejected_before_lock (env : Env)
    (lv uid g : String) (a : Rat) (s : RedisStore) (w : Wallet)
    (h : a ≤ 0) :
    deposit env lv uid a s w =
      { result := Except.error WalletError.validation
        store := s, wallet := w, events := [] } ∧
    withdraw env lv uid a s w =
      { result := Except.error WalletError.validation
        store := s, wallet := w, events := [] } ∧
    placeBet env lv uid a g s w =
      { result := Except.error WalletError.validation
        store := s, wallet := w, events := [] } ∧
    processWinnings env lv uid a g s w =
      { result := Except.error WalletError.validation
        store := s, wallet := w, events := [] } ∧
    cashout env lv uid a g s w =
      { result := Except.error WalletError.validation
        store := s, wallet := w, events := [] } := by
  refine ⟨?_, ?_, ?_, ?_, ?_⟩ <;>
    simp [deposit, withdraw, placeBet, processWinnings, cashout, h]

/-- Witness for C4 at amount 0. -/
theorem nonpositive_amount_rejected_before_lock_witness :
    (0 : Rat) ≤ 0 ∧
    deposit envAllOk "t" "u" 0 emptyStore walletInit =
      { result := Except.error WalletError.validation
        store := emptyStore, wallet := walletInit, events := [] } ∧
    withdraw envAllOk "t" "u" 0 emptyStore walletInit =
      { result := Except.error WalletError.validation
        store := emptyStore, wallet := walletInit, events := [] } ∧
    placeBet envAllOk "t" "u" 0 "g1" emptyStore walletInit =
      { result := Except.error WalletError.validation
        store := emptyStore, wallet := walletInit, events := [] } ∧
    processWinnings envAllOk "t" "u" 0 "g1" emptyStore walletInit =
      { result := Except.error WalletError.validation
        store := emptyStore, wallet := walletInit, events := [] } ∧
    cashout envAllOk "t" "u" 0 "g1" emptyStore walletInit =
      { result := Except.error WalletError.validation
        store := emptyStore, wallet := walletInit, events := [] } :=
  ⟨by decide,
   nonpositive_amount_rejected_before_lock envAllOk "t" "u" "g1" 0
     emptyStore walletInit (by decide)⟩

/-- C8: lock acquisition derives the lock key from the userId alone -
the purpose argument has no effect on the acquisition - and two
acquisitions for the same user under different purposes contend for
the same lock: once the first has succeeded, the second fails with
the contention error. -/
theorem lock_key_ignores_purpose (uid p1 p2 lv1 lv2 : String)
    (s : RedisStore) (h : redisGet s (walletLockKey uid) = none) :
    acquireWalletLock uid p1 lv1 s = acquireWalletLock uid p2 lv1 s ∧
    (acquireWalletLock uid p1 lv1 s).1 =
      Except.ok (walletLockKey uid, lv1) ∧
    (acquireWalletLock uid p2 lv2 (acquireWalletLock uid p1 lv1 s).2).1 =
      Except.error WalletError.lockContention := by
  refine ⟨rfl, ?_, ?_⟩
  · simp [acquireWalletLock, redisSetNX, h]
  · have h' : s (walletLockKey uid) = none := h
    simp [acquireWalletLock, redisSetNX, redisGet, redisSet, h']

/-- Witness for C8: a deposit-purpose acquisition and a bet-purpose
acquisition for the same user contend. -/
theorem lock_key_ignores_purpose_witness :
    redisGet emptyStore (walletLockKey "alice") = none ∧
    (acquireWalletLock "alice" "bet_placement_transaction" "v2"
      (acquireWalletLock "alice" "deposit_transaction" "v1" emptyStore).2).1 =
      Except.error WalletError.lockContention :=
  ⟨rfl,
   (lock_key_ignores_purpose "alice" "deposit_transaction"
     "bet_placement_transaction" "v1" "v2" emptyStore rfl).2.2⟩

/-- C9: a falsy userId (null, undefined, or the empty string) makes
getUserProfileBalance fail with the invalid-user-id error before any
balance verification, ledger read, or cache write: the outcome is the
error together with the untouched store, the untouched wallet, and an
empty event list. -/
theorem falsy_userId_rejected_without_side_effects (lv : String)
    (userId : Option String) (s : RedisStore) (w : Wallet)
    (h : jsTruthy userId = false) :
    getUserProfileBalance lv userId s w =
      (Except.error WalletError.invalidUserId, s, w, []) := by
  simp [getUserProfileBalance, h]

/-- Witness for C9 at a null userId. -/
theorem falsy_userId_rejected_without_side_effects_witness :
    jsTruthy none = false ∧
    getUserProfileBalance "t" none emptyStore walletInit =
      (Except.error WalletError.invalidUserId, emptyStore, walletInit, []) :=
  ⟨rfl,
   falsy_userId_rejected_without_side_effects "t" none emptyStore
     walletInit rfl⟩

theorem deposit_release_last (env : Env) (lv uid : String) (a : Rat)
    (s : RedisStore) (w : Wallet) (ha : 0 < a)
    (hs : redisGet s (walletLockKey uid) = none) :
    (deposit env lv uid a s w).events.getLast? =
      some (Event.lockReleased (walletLockKey uid)) ∧
    Event.lockAcquired (walletLockKey uid) ∈
      (deposit env lv uid a s w).events := by
  have hle : ¬ a ≤ 0 := not_le.mpr ha
  have hacq : acquireWalletLock uid "deposit_transaction" lv s =
      (Except.ok (walletLockKey uid, lv), redisSet s (walletLockKey uid) lv) := by
    simp [acquireWalletLock, redisSetNX, hs]
  unfold deposit
  rw [if_neg hle, hacq]
  rcases env with ⟨lo, co, sp, no, cr⟩
  cases lo <;> cases co <;> simp [List.getLast?]

theorem withdraw_release_last (env : Env) (lv uid : String) (a : Rat)
    (s : RedisStore) (w : Wallet) (ha : 0 < a)
    (hs : redisGet s (walletLockKey uid) = none) :
    (withdraw env lv uid a s w).events.getLast? =
      some (Event.lockReleased (walletLockKey uid)) ∧
    Event.lockAcquired (walletLockKey uid) ∈
      (withdraw env lv uid a s w).events := by
  have hle : ¬ a ≤ 0 := not_le.mpr ha
  have hacq : acquireWalletLock uid "withdrawal_transaction" lv s =
      (Except.ok (walletLockKey uid, lv), redisSet s (walletLockKey uid) lv) := by
    simp [acquireWalletLock, redisSetNX, hs]
  unfold withdraw
  rw [if_neg hle, hacq]
  rcases env with ⟨lo, co, sp, no, cr⟩
  cases lo <;> cases co <;> simp [List.getLast?]

theorem placeBet_release_last (env : Env) (lv uid : String) (a : Rat)
    (g : String) (s : RedisStore) (w : Wallet) (ha : 0 < a)
    (hs : redisGet s (walletLockKey uid) = none) :
    (placeBet env lv uid a g s w).events.getLast? =
      some (Event.lockReleased (walletLockKey uid)) ∧
    Event.lockAcquired (walletLockKey uid) ∈
      (placeBet env lv uid a g s w).events := by
  have hle : ¬ a ≤ 0 := not_le.mpr ha
  have hacq : acquireWalletLock uid "bet_placement_transaction" lv s =
      (Except.ok (walletLockKey uid, lv), redisSet s (walletLockKey uid) lv) := by
    simp [acquireWalletLock, redisSetNX, hs]
  unfold placeBet
  rw [if_neg hle, hacq]
  rcases env with ⟨lo, co, sp, no, cr⟩
  cases lo <;> cases co <;> cases sp <;> cases no <;> simp [List.getLast?]

theorem processWinnings_release_last (env : Env) (lv uid : String)
    (a : Rat) (g : String) (s : RedisStore) (w : Wallet) (ha : 0 < a)
    (hs : redisGet s (walletLockKey uid) = none) :
    (processWinnings env lv uid a g s w).events.getLast? =
      some (Event.lockReleased (walletLockKey uid)) ∧
    Event.lockAcquired (walletLockKey uid) ∈
      (processWinnings env lv uid a g s w).events := by
  have hle : ¬ a ≤ 0 := not_le.mpr ha
  have hacq : acquireWalletLock uid "game_winnings_transaction" lv s =
      (Except.ok (walletLockKey uid, lv), redisSet s (walletLockKey uid) lv) := by
    simp [acquireWalletLock, redisSetNX, hs]
  unfold processWinnings
  rw [if_neg hle, hacq]
  rcases env with ⟨lo, co, sp, no, cr⟩
  cases lo <;> cases co <;> cases sp <;> cases no <;> simp [List.getLast?]

theorem cashout_release_last (env : Env) (lv uid : String) (a : Rat)
    (g : String) (s : RedisStore) (w : Wallet) (ha : 0 < a)
    (hs : redisGet s (walletLockKey uid) = none) :
    (cashout env lv uid a g s w).events.getLast? =
      some (Event.lockReleased (walletLockKey uid)) ∧
    Event.lockAcquired (walletLockKey uid) ∈
      (cashout env lv uid a g s w).events := by
  have hle : ¬ a ≤ 0 := not_le.mpr ha
  have hacq : acquireWalletLock uid "cashout_transaction" lv s =
      (Except.ok (walletLockKey uid, lv), redisSet s (walletLockKey uid) lv) := by
    simp [acquireWalletLock, redisSetNX, hs]
  unfold cashout
  rw [if_neg hle, hacq]
  rcases env with ⟨lo, co, sp, no, cr⟩
  cases lo <;> cases co <;> cases sp <;> cases no <;> simp [List.getLast?]

theorem createWallet_release_last (env : Env) (lv uid : String)
    (s : RedisStore) (w : Wallet)
    (hs : redisGet s (walletLockKey uid) = none) :
    (createWallet env lv uid s w).events.getLast? =
      some (Event.lockReleased (walletLockKey uid)) ∧
    Event.lockAcquired (walletLockKey uid) ∈
      (createWallet env lv uid s w).events := by
  have hacq : acquireWalletLock uid "wallet_creation" lv s =
      (Except.ok (walletLockKey uid, lv), redisSet s (walletLockKey uid) lv) := by
    simp [acquireWalletLock, redisSetNX, hs]
  unfold createWallet
  rw [hacq]
  rcases env with ⟨lo, co, sp, no, cr⟩
  cases cr <;> cases co <;> simp [List.getLast?]

/-- C2: for every mutating operation (deposit, withdraw, placeBet,
processWinnings, cashout, createWallet) and every execution in which
the per-user lock was successfully acquired (positive amount where
the operation validates one, lock key free), the lock release step
runs on every exit path: whatever combination of later failures the
environment injects (ledger write, cache update, notification), the
release event for the acquired key is the final observable step, so
any error from those later steps reaches the caller only after the
release executed. -/
theorem lock_released_on_every_exit_path (env : Env)
    (lv uid g : String) (a : Rat) (s : RedisStore) (w : Wallet)
    (ha : 0 < a) (hs : redisGet s (walletLockKey uid) = none) :
    ((deposit env lv uid a s w).events.getLast? =
        some (Event.lockReleased (walletLockKey uid)) ∧
      Event.lockAcquired (walletLockKey uid) ∈
        (deposit env lv uid a s w).events) ∧
    ((withdraw env lv uid a s w).events.getLast? =
        some (Event.lockReleased (walletLockKey uid)) ∧
      Event.lockAcquired (walletLockKey uid) ∈
        (withdraw env lv uid a s w).events) ∧
    ((placeBet env lv uid a g s w).events.getLast? =
        some (Event.lockReleased (walletLockKey uid)) ∧
      Event.lockAcquired (walletLockKey uid) ∈
        (placeBet env lv uid a g s w).events) ∧
    ((processWinnings env lv uid a g s w).events.getLast? =
        some (Event.lockReleased (walletLockKey uid)) ∧
      Event.lockAcquired (walletLockKey uid) ∈
        (processWinnings env lv uid a g s w).events) ∧
    ((cashout env lv uid a g s w).events.getLast? =
        some (Event.lockReleased (walletLockKey uid)) ∧
      Event.lockAcquired (walletLockKey uid) ∈
        (cashout env lv uid a g s w).events) ∧
    ((createWallet env lv uid s w).events.getLast? =
        some (Event.lockReleased (walletLockKey uid)) ∧
      Event.lockAcquired (walletLockKey uid) ∈
        (createWallet env lv uid s w).events) :=
  ⟨deposit_release_last env lv uid a s w ha hs,
   withdraw_release_last env lv uid a s w ha hs,
   placeBet_release_last env lv uid a g s w ha hs,
   processWinnings_release_last env lv uid a g s w ha hs,
   cashout_release_last env lv uid a g s w ha hs,
   createWallet_release_last env lv uid s w hs⟩

/-- An environment in which the ledger write succeeds but the cache
write fails. -/
def envCacheFail : Env :=
  { ledgerOk := true, cacheOk := false, socketPresent := true
    notifyOk := true, createOk := true }

/-- Witness for C2: under a failing cache write, the deposit error
still reaches the caller only after the release event, which is the
last observable step. -/
theorem lock_released_on_every_exit_path_witness :
    0 < (5 : Rat) ∧
    redisGet emptyStore (walletLockKey "u") = none ∧
    (deposit envCacheFail "t" "u" 5 emptyStore walletInit).events.getLast? =
      some (Event.lockReleased (walletLockKey "u")) :=
  ⟨by decide, rfl,
   (lock_released_on_every_exit_path envCacheFail "t" "u" "g1" 5
     emptyStore walletInit (by decide) rfl).1.1⟩

/-- C5 divergence: at the failing input withdraw(u, 100) the source
(walletService.js line 357-363) passes the positive amount 100, with
transaction type withdraw, to WalletRepository.recordTransaction; it
does not pass -100.  Under the ledger contract of the spec the
recorded transaction therefore credits the balance: the wallet
balance after a withdrawal of 100 from balance 0 is +100.  The other
four operations do pass the sign the claim states: placeBet passes
-100, while deposit, processWinnings, and cashout pass +100. -/
theorem withdraw_passes_positive_amount_to_ledger :
    Event.ledgerWrite "withdraw" 100 ∈
      (withdraw envAllOk "t" "u" 100 emptyStore walletInit).events ∧
    Event.ledgerWrite "withdraw" (-100) ∉
      (withdraw envAllOk "t" "u" 100 emptyStore walletInit).events ∧
    (withdraw envAllOk "t" "u" 100 emptyStore walletInit).wallet.balance = 100 ∧
    Event.ledgerWrite "deposit" 100 ∈
      (deposit envAllOk "t" "u" 100 emptyStore walletInit).events ∧
    Event.ledgerWrite "game_bet" (-100) ∈
      (placeBet envAllOk "t" "u" 100 "g1" emptyStore walletInit).events ∧
    Event.ledgerWrite "game_win" 100 ∈
      (processWinnings envAllOk "t" "u" 100 "g1" emptyStore walletInit).events ∧
    Event.ledgerWrite "game_cashout" 100 ∈
      (cashout envAllOk "t" "u" 100 "g1" emptyStore walletInit).events := by
  refine ⟨?_, ?_, ?_, ?_, ?_, ?_, ?_⟩ <;>
    norm_num [withdraw, deposit, placeBet, processWinnings, cashout,
      acquireWalletLock, redisSetNX, redisGet, emptyStore, envAllOk,
      walletInit, ledgerAppend] <;> simp

/-- C6 counterexample: with the ledger write succeeding and the
subsequent balance-cache write failing, deposit(u, 100) does not
return the successful result to the caller - the catch block rethrows
the cache error - even though the committed ledger mutation stands
(the transaction row is recorded and the wallet balance reflects
it). -/
theorem deposit_cache_failure_returns_error :
    (deposit envCacheFail "t" "u" 100 emptyStore walletInit).result =
      Except.error WalletError.cacheError ∧
    (deposit envCacheFail "t" "u" 100 emptyStore walletInit).wallet =
      (ledgerAppend walletInit "deposit" 100).1 := by
  refine ⟨?_, ?_⟩ <;>
    norm_num [deposit, acquireWalletLock, redisSetNX, redisGet,
      emptyStore, envCacheFail, walletInit, ledgerAppend]

/-- C6 amended: for every mutating operation in which the ledger
write succeeds and the balance-cache write then fails, the cache
error is logged and rethrown - the operation reports failure to the
caller rather than returning the successful result - while the
committed ledger mutation stands (the outcome wallet is exactly the
ledger-mutated wallet) and the lock is still released as the final
step. -/
theorem cache_failure_propagates_after_ledger_commit (env : Env)
    (lv uid g : String) (a : Rat) (s : RedisStore) (w : Wallet)
    (ha : 0 < a) (hs : redisGet s (walletLockKey uid) = none)
    (hl : env.ledgerOk = true) (hc : env.cacheOk = false) :
    ((deposit env lv uid a s w).result =
        Except.error WalletError.cacheError ∧
      (deposit env lv uid a s w).wallet =
        (ledgerAppend w "deposit" a).1 ∧
      (deposit env lv uid a s w).events.getLast? =
        some (Event.lockReleased (walletLockKey uid))) ∧
    ((withdraw env lv uid a s w).result =
        Except.error WalletError.cacheError ∧
      (withdraw env lv uid a s w).wallet =
        (ledgerAppend w "withdraw" a).1 ∧
      (withdraw env lv uid a s w).events.getLast? =
        some (Event.lockReleased (walletLockKey uid))) ∧
    ((placeBet env lv uid a g s w).result =
        Except.error WalletError.cacheError ∧
      (placeBet env lv uid a g s w).wallet =
        (ledgerAppend w "game_bet" (-a)).1 ∧
      (placeBet env lv uid a g s w).events.getLast? =
        some (Event.lockReleased (walletLockKey uid))) ∧
    ((processWinnings env lv uid a g s w).result =
        Except.error WalletError.cacheError ∧
      (processWinnings env lv uid a g s w).wallet =
        (ledgerAppend w "game_win" a).1 ∧
      (processWinnings env lv uid a g s w).events.getLast? =
        some (Event.lockReleased (walletLockKey uid))) ∧
    ((cashout env lv uid a g s w).result =
        Except.error WalletError.cacheError ∧
      (cashout env lv uid a g s w).wallet =
        (ledgerAppend w "game_cashout" a).1 ∧
      (cashout env lv uid a g s w).events.getLast? =
        some (Event.lockReleased (walletLockKey uid))) := by
  have hle : ¬ a ≤ 0 := not_le.mpr ha
  refine ⟨?_, ?_, ?_, ?_, ?_⟩
  · have hacq : acquireWalletLock uid "deposit_transaction" lv s =
        (Except.ok (walletLockKey uid, lv), redisSet s (walletLockKey uid) lv) := by
      simp [acquireWalletLock, redisSetNX, hs]
    unfold deposit
    rw [if_neg hle, hacq]
    simp [hl, hc, List.getLast?]
  · have hacq : acquireWalletLock uid "withdrawal_transaction" lv s =
        (Except.ok (walletLockKey uid, lv), redisSet s (walletLockKey uid) lv) := by
      simp [acquireWalletLock, redisSetNX, hs]
    unfold withdraw
    rw [if_neg hle, hacq]
    simp [hl, hc, List.getLast?]
  · have hacq : acquireWalletLock uid "bet_placement_transaction" lv s =
        (Except.ok (walletLockKey uid, lv), redisSet s (walletLockKey uid) lv) := by
      simp [acquireWalletLock, redisSetNX, hs]
    unfold placeBet
    rw [if_neg hle, hacq]
    simp [hl, hc, List.getLast?]
  · have hacq : acquireWalletLock uid "game_winnings_transaction" lv s =
        (Except.ok (walletLockKey uid, lv), redisSet s (walletLockKey uid) lv) := by
      simp [acquireWalletLock, redisSetNX, hs]
    unfold processWinnings
    rw [if_neg hle, hacq]
    simp [hl, hc, List.getLast?]
  · have hacq : acquireWalletLock uid "cashout_transaction" lv s =
        (Except.ok (walletLockKey uid, lv), redisSet s (walletLockKey uid) lv) := by
      simp [acquireWalletLock, redisSetNX, hs]
    unfold cashout
    rw [if_neg hle, hacq]
    simp [hl, hc, List.getLast?]

/-- Witness for the amended C6 on a concrete deposit. -/
theorem cache_failure_propagates_after_ledger_commit_witness :
    0 < (7 : Rat) ∧
    redisGet emptyStore (walletLockKey "u") = none ∧
    envCacheFail.ledgerOk = true ∧ envCacheFail.cacheOk = false ∧
    (deposit envCacheFail "t" "u" 7 emptyStore walletInit).result =
      Except.error WalletError.cacheError ∧
    (deposit envCacheFail "t" "u" 7 emptyStore walletInit).wallet =
      (ledgerAppend walletInit "deposit" 7).1 :=
  ⟨by norm_num, rfl, rfl, rfl,
   ((cache_failure_propagates_after_ledger_commit envCacheFail "t" "u"
     "g1" 7 emptyStore walletInit (by norm_num) rfl rfl rfl).1).1,
   ((cache_failure_propagates_after_ledger_commit envCacheFail "t" "u"
     "g1" 7 emptyStore walletInit (by norm_num) rfl rfl rfl).1).2.1⟩

/-- C7: a balance read through getUserProfileBalance with a truthy
userId always triggers reconciliation, and the reconciliation
acquires the per-user wallet lock under walletLockKey uid - the very
key every mutating operation acquires (witnessed here by deposit on
the same store) - before recomputing the balance as the transaction
sum and correcting the stored balance; the read returns the
recomputed balance. -/
theorem profile_balance_triggers_locked_reconciliation
    (lv uid : String) (s : RedisStore) (w : Wallet)
    (hu : uid ≠ "") (hs : redisGet s (walletLockKey uid) = none) :
    (getUserProfileBalance lv (some uid) s w).2.2.2 =
      [Event.lockAcquired (walletLockKey uid),
       Event.reconciled (sumAmounts w != w.balance),
       Event.lockReleased (walletLockKey uid),
       Event.cacheWrite ("wallet_balance:" ++ uid) (sumAmounts w)] ∧
    (getUserProfileBalance lv (some uid) s w).1 =
      Except.ok { balance := sumAmounts w, currency := "KSH"
                  balanceVerified := (sumAmounts w != w.balance) } ∧
    Event.lockAcquired (walletLockKey uid) ∈
      (deposit envAllOk lv uid 1 s w).events := by
  have htr : jsTruthy (some uid) = true := by
    have he : uid.isEmpty = false := by
      rcases h : uid.isEmpty with _ | _
      · rfl
      · exact absurd ((String.isEmpty_iff uid).mp h) hu
    simp [jsTruthy, he]
  have hacq : acquireWalletLock uid "balance_reconciliation" lv s =
      (Except.ok (walletLockKey uid, lv), redisSet s (walletLockKey uid) lv) := by
    simp [acquireWalletLock, redisSetNX, hs]
  refine ⟨?_, ?_,
    (deposit_release_last envAllOk lv uid 1 s w (by norm_num) hs).2⟩
  · simp [getUserProfileBalance, verifyAndSyncBalance, htr, hacq]
  · simp [getUserProfileBalance, verifyAndSyncBalance, htr, hacq]

/-- Witness for C7 on a drifted wallet: the read recomputes the
balance from the single recorded transaction. -/
theorem profile_balance_triggers_locked_reconciliation_witness :
    "u" ≠ "" ∧
    redisGet emptyStore (walletLockKey "u") = none ∧
    (getUserProfileBalance "t" (some "u") emptyStore
        { balance := 5, txns := [{ txType := "deposit", amount := 3, balanceAfter := 3 }] }).2.2.2 =
      [Event.lockAcquired (walletLockKey "u"),
       Event.reconciled true,
       Event.lockReleased (walletLockKey "u"),
       Event.cacheWrite ("wallet_balance:" ++ "u") 3] :=
  ⟨by decide, rfl, by
    have h := (profile_balance_triggers_locked_reconciliation "t" "u"
      emptyStore
      { balance := 5, txns := [{ txType := "deposit", amount := 3, balanceAfter := 3 }] }
      (by decide) rfl).1
    simpa [sumAmounts] using h⟩

theorem saveGameResult_eq_take (hist : List HistoryEntry)
    (g : GameResultIn) (now : Nat) (h : hist.length ≤ 100) :
    saveGameResult hist g now = (toHistoryEntry g now :: hist).take 100 := by
  simp only [saveGameResult]
  by_cases hlen : (toHistoryEntry g now :: hist).length > 100
  · rw [if_pos hlen, List.dropLast_eq_take]
    congr 1
    simp only [List.length_cons] at hlen ⊢
    omega
  · rw [if_neg hlen]
    exact (List.take_of_length_le (Nat.not_lt.mp hlen)).symm

theorem foldl_save_eq_take (l : List (GameResultIn × Nat))
    (hist : List HistoryEntry) (h : hist.length ≤ 100) :
    l.foldl (fun h g => saveGameResult h g.1 g.2) hist =
      ((l.map (fun p => toHistoryEntry p.1 p.2)).reverse ++ hist).take 100 := by
  induction l generalizing hist with
  | nil => simpa using (List.take_of_length_le h).symm
  | cons g t ih =>
    rw [List.foldl_cons, saveGameResult_eq_take _ _ _ h]
    rw [ih _ (by simp only [List.length_take]; omega)]
    rw [List.map_cons, List.reverse_cons, List.append_assoc,
      List.singleton_append]
    rw [List.take_append_eq_append_take, List.take_append_eq_append_take]
    congr 1
    rw [List.take_take]
    congr 1
    omega

/-- C10: starting from the empty history, after any sequence of
saveGameResult calls the game history holds at most 100 entries and
equals the first 100 of the saved results newest first;
getGameHistory(limit) returns the limit most recent results, and
getLastGameResult returns the most recently saved result, or none
when no game has been saved. -/
theorem game_history_bounded_newest_first
    (l : List (GameResultIn × Nat)) (limit : Nat) :
    (runSaves l).length ≤ 100 ∧
    runSaves l =
      ((l.map (fun p => toHistoryEntry p.1 p.2)).reverse).take 100 ∧
    getGameHistory (runSaves l) limit =
      ((l.map (fun p => toHistoryEntry p.1 p.2)).reverse).take (min limit 100) ∧
    getLastGameResult (runSaves l) =
      (l.map (fun p => toHistoryEntry p.1 p.2)).getLast? := by
  have hchar : runSaves l =
      ((l.map (fun p => toHistoryEntry p.1 p.2)).reverse).take 100 := by
    have h := foldl_save_eq_take l [] (by simp)
    simpa [runSaves] using h
  refine ⟨?_, hchar, ?_, ?_⟩
  · rw [hchar]
    simp only [List.length_take]
    omega
  · simp only [getGameHistory]
    rw [hchar, List.take_take]
  · simp only [getLastGameResult]
    rw [hchar, List.head?_take]
    simp
